import Mathlib

/-!
Shallow embedding of `src/SWMonitor.py` (a periodic ping monitor) and
verification of the specification's claims about it.

Modelling conventions:
* Python `dict` objects keyed by strings become association lists
  (`List (String × β)`) with Python's insertion-order update semantics.
* Python `int` becomes `ℤ`; `int()` applied to a non-integer rational
  truncates toward zero (`pyInt`).
* The textual output of the external `ping` process is abstracted by the
  ordered lists of regex matches the code extracts from it (`PingOutput`):
  `re.findall` yields the whole list in order of appearance, `re.search`
  yields the head of the corresponding list.
* A Python exception escaping an expression is modelled with `Option`/`Except`
  (`none` / `.error`): a `try`/`except` block becomes a `match` on that value.
-/

namespace SWMonitor

/-- Lookup in a Python dict modelled as an association list
(`monitor_ips.failure_count[ip]` read access). -/
def lookupCount : List (String × ℤ) → String → Option ℤ
  | [], _ => none
  | (k, v) :: m, ip => if k = ip then some v else lookupCount m ip

/-- Write access `d[ip] = v` on a Python dict modelled as an association list:
replaces the value of an existing key in place, appends a fresh key at the
end (Python dicts preserve insertion order). -/
def dictInsert : List (String × ℤ) → String → ℤ → List (String × ℤ)
  | [], ip, v => [(ip, v)]
  | (k, w) :: m, ip, v => if k = ip then (k, v) :: m else (k, w) :: dictInsert m ip v

/-- The per-host failure counter dict `monitor_ips.failure_count`
(SWMonitor.py line 157). -/
abbrev FailureCount := List (String × ℤ)

/-- Python `int()` applied to a rational: truncation toward zero, computed on
the reduced numerator and denominator. -/
def pyInt (q : ℚ) : ℤ :=
  if 0 ≤ q.num then ((q.num.toNat / q.den : ℕ) : ℤ) else -(((-q.num).toNat / q.den : ℕ) : ℤ)

/-- The `details` dict built by `ping_ip` (lines 126-150): `none` models the
string `"未知"` (field present but unparseable) or an absent key. -/
structure PingDetails where
  response_time : Option ℤ
  ttl : Option ℕ
deriving DecidableEq, Repr

/-- Abstraction of one run of the external `ping` process as consumed by
`ping_ip` (lines 121-125): the exit status, the ordered list of per-packet
round-trip-time regex matches (`re.findall` on `time=... ms`, parsed by
`float`), and the ordered list of TTL regex matches (`TTL=...`). -/
structure PingOutput where
  exitSuccess : Bool
  timeMatches : List ℚ
  ttlMatches : List ℕ
deriving DecidableEq, Repr

/-- `ping_ip` (lines 113-152): returns `(ip, reachable, details)`.
`reachable` is the exit status; on success `response_time` is
`int(sum(times)/len(times))` when at least one time matched, and `ttl` is the
first TTL match (`re.search`); on failure `details` stays empty. -/
def ping_ip (ip : String) (out : PingOutput) : String × Bool × PingDetails :=
  let reachable := out.exitSuccess
  if reachable then
    let rt : Option ℤ :=
      match out.timeMatches with
      | [] => none
      | _ => some (pyInt (out.timeMatches.sum / (out.timeMatches.length : ℚ)))
    (ip, reachable, ⟨rt, out.ttlMatches.head?⟩)
  else
    (ip, reachable, ⟨none, none⟩)

/-- One completed future in the loop of `monitor_ips` (lines 168-190):
the submitted hostname and address, and `future.result()`, which either
returns the `(reachable, details)` part of `ping_ip`'s triple or raises
(`none`, caught by the `except` on line 189). -/
structure HostResult where
  hostname : String
  ip : String
  outcome : Option (Bool × PingDetails)
deriving DecidableEq, Repr

/-- An element of `alert_list` (line 181): `(hostname, ip, logged_failure_count)`. -/
abbrev AlertEntry := String × String × ℤ

/-- The body of the `for future in as_completed(...)` loop of `monitor_ips`
(lines 168-190) acting on `(failure_count, alert_list)`:
* a raised `future.result()` is caught and the host skipped;
* unreachable: increment the counter, and append an alert entry when the new
  value meets or exceeds `failure_threshold` (line 174, inclusive `>=`);
* reachable: reset the counter to 0.
A `KeyError` from the increment on a missing key (impossible in the real loop,
where every probed address is initialised) is caught by the same `except`. -/
def processResult (failure_threshold : ℤ) (st : FailureCount × List AlertEntry)
    (r : HostResult) : FailureCount × List AlertEntry :=
  match r.outcome with
  | none => st
  | some (reachable, _) =>
    if reachable then
      (dictInsert st.1 r.ip 0, st.2)
    else
      match lookupCount st.1 r.ip with
      | none => st
      | some c =>
        if failure_threshold ≤ c + 1 then
          (dictInsert st.1 r.ip (c + 1), st.2 ++ [(r.hostname, r.ip, c + 1)])
        else
          (dictInsert st.1 r.ip (c + 1), st.2)

/-- The result-folding stage of `monitor_ips` (lines 154-191): starting from
the persistent `failure_count` dict and an empty `alert_list`, fold the
completed probe results in completion order. Concurrency is replaced by an
explicit result list; `send_alert` (line 194) is modelled separately. -/
def monitor_ips (failure_threshold : ℤ) (failure_count : FailureCount)
    (results : List HostResult) : FailureCount × List AlertEntry :=
  results.foldl (processResult failure_threshold) (failure_count, [])

/-- First-call initialisation `{ip: 0 for _, ip in ip_list}` (line 157). -/
def initFailureCount (ip_list : List (String × String)) : FailureCount :=
  ip_list.foldl (fun m p => dictInsert m p.2 0) []

/-- A result for a host whose probe reported unreachable. -/
def unreachableResult (hostname ip : String) : HostResult :=
  ⟨hostname, ip, some (false, ⟨none, none⟩)⟩

/-- A result for a host whose probe reported reachable. -/
def reachableResult (hostname ip : String) : HostResult :=
  ⟨hostname, ip, some (true, ⟨none, none⟩)⟩

/-- Value of the per-address counter after one loop iteration touches it:
raised result leaves it, reachable resets it, unreachable increments it
(missing key: the `KeyError` is caught, counter side untouched). -/
def updateCount (old : Option ℤ) (out : Option (Bool × PingDetails)) : Option ℤ :=
  match out with
  | none => old
  | some (true, _) => some 0
  | some (false, _) =>
    match old with
    | none => none
    | some c => some (c + 1)

/-- The alert entries one loop iteration appends for one result, as a function
of the counter value it observes for that address. -/
def alertOf (failure_threshold : ℤ) (old : Option ℤ) (r : HostResult) : List AlertEntry :=
  match r.outcome with
  | none => []
  | some (true, _) => []
  | some (false, _) =>
    match old with
    | none => []
    | some c =>
      if failure_threshold ≤ c + 1 then [(r.hostname, r.ip, c + 1)] else []

/-! ### Alert dispatch: `call_bot_exe` (lines 56-79) and `send_alert` (lines 82-111) -/

/-- What `subprocess.run([bot_exe, platform_name, message], check=True, timeout=30)`
can raise (line 74). -/
inductive SinkExc where
  | calledProcessError
  | timeoutExpired
  | otherException
deriving DecidableEq, Repr

/-- The environment `call_bot_exe` runs in: whether the PushBot binary exists
(line 65) and, per `(platform_name, message)` invocation, whether the
subprocess run returns normally or raises. -/
structure SinkEnv where
  botExeExists : Bool
  run : String → String → Except SinkExc Unit

/-- What one `call_bot_exe` invocation logged before returning normally. -/
inductive DispatchOutcome where
  | missingBinary
  | pushed
  | loggedError
  | loggedException
deriving DecidableEq, Repr

/-- `call_bot_exe` (lines 56-79): if the binary is missing, log and return;
otherwise run the subprocess under `try`, catching `CalledProcessError`
(line 76) and every other `Exception` (line 78). An `.error` result would
model an exception escaping into the caller; every branch returns `.ok`. -/
def call_bot_exe (env : SinkEnv) (platform_name message : String) :
    Except SinkExc DispatchOutcome :=
  if env.botExeExists = false then
    .ok .missingBinary
  else
    match env.run platform_name message with
    | .ok _ => .ok .pushed
    | .error .calledProcessError => .ok .loggedError
    | .error .timeoutExpired => .ok .loggedException
    | .error .otherException => .ok .loggedException

/-- Python `s.ljust(w)`: pad on the right with spaces to width `w`. -/
def pyLjust (s : String) (w : ℕ) : String :=
  s ++ String.mk (List.replicate (w - s.length) ' ')

/-- Python `s.center(w)`: CPython puts `marg // 2 + (marg & w & 1)` of the
`marg = w - len(s)` pad characters on the left. -/
def pyCenter (s : String) (w : ℕ) : String :=
  let marg := w - s.length
  let left := marg / 2 + (marg % 2) * (w % 2)
  String.mk (List.replicate left ' ') ++ s ++ String.mk (List.replicate (marg - left) ' ')

/-- Python `max` over a list of naturals; agrees with the builtin whenever the
list is non-empty (the only way `send_alert` uses it, behind its empty guard). -/
def listMax (l : List ℕ) : ℕ := l.foldl Nat.max 0

/-- The separator line `"-" * n` of `send_alert`. -/
def sepLine (n : ℕ) : String := String.mk (List.replicate n (Char.ofNat 45)) ++ "\n"

/-- The consolidated report `message` built by `send_alert` (lines 86-107);
`now` stands for `time.strftime("%Y-%m-%d %H:%M:%S")`. -/
def buildAlertMessage (now : String) (alert_list : List AlertEntry) : String :=
  let hostname_width := Nat.max "设备名称".length (listMax (alert_list.map (fun e => e.1.length)))
  let ip_width := Nat.max "设备IP地址".length (listMax (alert_list.map (fun e => e.2.1.length)))
  let count_width := Nat.max "监测失败次数".length (listMax (alert_list.map (fun e => (toString e.2.2).length)))
  let sep := sepLine (hostname_width + ip_width + count_width + 35)
  "本次监控系统检测到以下设备不可达，请及时检查：\n" ++ sep ++
    pyLjust "设备名称" hostname_width ++ "  " ++
    pyLjust "设备IP地址" ip_width ++ "  " ++
    pyCenter "监测失败次数" count_width ++ "\n" ++ sep ++
    String.join (alert_list.map (fun e =>
      pyLjust e.1 hostname_width ++ "  " ++
      pyLjust e.2.1 ip_width ++ "  " ++
      pyCenter (toString e.2.2) count_width ++ "\n")) ++
    sep ++ "告警时间：" ++ now

/-- The `for platform_name in platforms` loop of `send_alert` (lines 110-111),
collecting the outcome of each `call_bot_exe` invocation in order. An
exception escaping one invocation (`.error`) would abort the loop and skip
the remaining channels — `call_bot_exe` never produces one. -/
def dispatchLoop (env : SinkEnv) (message : String) :
    List String → Except SinkExc (List (String × DispatchOutcome))
  | [] => .ok []
  | p :: ps =>
    match call_bot_exe env p message with
    | .error e => .error e
    | .ok o =>
      match dispatchLoop env message ps with
      | .error e => .error e
      | .ok l => .ok ((p, o) :: l)

/-- `send_alert` (lines 82-111): return immediately on an empty alert list,
otherwise build the report once and dispatch it to every channel in order. -/
def send_alert (env : SinkEnv) (now : String) (alert_list : List AlertEntry)
    (platforms : List String) : Except SinkExc (List (String × DispatchOutcome)) :=
  match alert_list with
  | [] => .ok []
  | _ => dispatchLoop env (buildAlertMessage now alert_list) platforms

/-! ### Startup configuration: `load_config` (lines 23-28) and `main` (lines 202-214) -/

/-- The parsed configuration file as `configparser` exposes it to
`config.get(section, key, fallback)`: `none` when the section or key is
absent (so the fallback value is used). -/
structure ConfigFile where
  get : String → String → Option String

/-- Python `s.strip()` on a character list: drop whitespace from both ends. -/
def pyStrip (cs : List Char) : List Char :=
  ((cs.dropWhile Char.isWhitespace).reverse.dropWhile Char.isWhitespace).reverse

/-- Python `int()` on a string: optional surrounding whitespace, an optional
sign, then decimal digits; raises (`none`) otherwise. -/
def pyIntParse (s : String) : Option ℤ :=
  let t := pyStrip s.toList
  let neg := t.head? = some (Char.ofNat 45)
  let core := if neg ∨ t.head? = some (Char.ofNat 43) then t.drop 1 else t
  if core ≠ [] ∧ core.all Char.isDigit then
    let n : ℕ := core.foldl (fun acc c => acc * 10 + (c.toNat - 48)) 0
    some (if neg then -(n : ℤ) else (n : ℤ))
  else
    none

/-- `config.get(section, key, fallback=d)` followed by `int(...)` (lines 205,
212-214): a missing field yields the integer fallback unchanged; a present
field is parsed by `int()`, which raises (`none`) on a malformed value. -/
def getIntField (cfg : ConfigFile) (sec key : String) (dflt : ℤ) : Option ℤ :=
  match cfg.get sec key with
  | none => some dflt
  | some s => pyIntParse s

/-- Python `s.strip("[]")`: drop `[` and `]` characters from both ends. -/
def stripBrackets (cs : List Char) : List Char :=
  let isBr := fun c => c = Char.ofNat 91 ∨ c = Char.ofNat 93
  ((cs.dropWhile isBr).reverse.dropWhile isBr).reverse

/-- Python `s.split(",")` on a character list: `[""]` on empty input, one
(possibly empty) group per comma-separated segment otherwise. -/
def splitComma : List Char → List (List Char)
  | [] => [[]]
  | c :: cs =>
    let r := splitComma cs
    if c = Char.ofNat 44 then [] :: r
    else
      match r with
      | [] => [[c]]
      | g :: gs => (c :: g) :: gs

/-- Parsing of the `enabled` channel list (lines 208-209): strip surrounding
brackets, delete quote characters, split on commas, strip whitespace and drop
empty items. -/
def parsePlatforms (s : String) : List String :=
  let cleaned := (stripBrackets s.toList).filter
    (fun x => x ≠ Char.ofNat 34 ∧ x ≠ Char.ofNat 39)
  (((splitComma cleaned).map (fun g => String.mk (pyStrip g)))).filter (fun p => p ≠ "")

/-- The configuration values `main` extracts (lines 205-214). -/
structure MonitorConfig where
  interval : ℤ
  platforms : List String
  ping_count : ℤ
  ping_timeout : ℤ
  failure_threshold : ℤ
deriving DecidableEq, Repr

/-- The configuration stage of `main` (lines 202-214). The argument is the
outcome of `open("config.conf")` inside `load_config`: `none` when the file
is missing or unreadable, in which case the uncaught exception terminates
startup (`none` result). With a readable file, each field is fetched with its
documented fallback and passed through `int()`; a malformed field value makes
`int()` raise, which is likewise uncaught and fatal. -/
def startupConfig (file : Option ConfigFile) : Option MonitorConfig :=
  match file with
  | none => none
  | some cfg =>
    match getIntField cfg "settings" "interval" 300 with
    | none => none
    | some interval =>
      let platforms := parsePlatforms ((cfg.get "platforms" "enabled").getD "")
      match getIntField cfg "ping" "ping_count" 3 with
      | none => none
      | some ping_count =>
        match getIntField cfg "ping" "ping_timeout" 1000 with
        | none => none
        | some ping_timeout =>
          match getIntField cfg "ping" "failure_threshold" 3 with
          | none => none
          | some failure_threshold =>
            some ⟨interval, platforms, ping_count, ping_timeout, failure_threshold⟩

/-! ### States of the failure tracker reachable by the monitoring loop -/

/-- The `failure_count` states the loop in `main` (lines 223-227) can reach:
the initial dict of line 157, and the first component of `monitor_ips` applied
to a completed cycle, where the results are the submitted `(hostname, ip)`
pairs of the host list in some completion order. -/
inductive Reachable (ip_list : List (String × String)) (failure_threshold : ℤ) :
    FailureCount → Prop where
  | init : Reachable ip_list failure_threshold (initFailureCount ip_list)
  | step (st : FailureCount) (results : List HostResult)
      (hres : (results.map (fun r => (r.hostname, r.ip))).Perm ip_list)
      (hst : Reachable ip_list failure_threshold st) :
      Reachable ip_list failure_threshold (monitor_ips failure_threshold st results).1

/-- `N` successive monitoring cycles in each of which the probe of
`(hostname, ip)` reports unreachable (the host list containing just that
host), starting from failure-count state `st`. -/
def iterUnreachable (t : ℤ) (hostname ip : String) (st : FailureCount) : ℕ → FailureCount
  | 0 => st
  | n + 1 =>
    (monitor_ips t (iterUnreachable t hostname ip st n) [unreachableResult hostname ip]).1

/-! ### Dictionary lemmas -/

theorem lookup_dictInsert_self (m : FailureCount) (ip : String) (v : ℤ) :
    lookupCount (dictInsert m ip v) ip = some v := by
  induction m with
  | nil => simp [dictInsert, lookupCount]
  | cons p m ih =>
    obtain ⟨k, w⟩ := p
    by_cases h : k = ip
    · subst h; simp [dictInsert, lookupCount]
    · simp [dictInsert, lookupCount, h, ih]

theorem lookup_dictInsert_ne (m : FailureCount) (ip ip' : String) (v : ℤ)
    (h : ip ≠ ip') : lookupCount (dictInsert m ip v) ip' = lookupCount m ip' := by
  induction m with
  | nil => simp [dictInsert, lookupCount, h]
  | cons p m ih =>
    obtain ⟨k, w⟩ := p
    by_cases hk : k = ip
    · subst hk; simp [dictInsert, lookupCount, h]
    · simp only [dictInsert, lookupCount, if_neg hk]
      by_cases hk' : k = ip'
      · simp [lookupCount, hk']
      · simp [lookupCount, hk', ih]

/-! ### One loop iteration -/

theorem processResult_fst (t : ℤ) (m : FailureCount) (acc : List AlertEntry)
    (r : HostResult) (ip : String) :
    lookupCount (processResult t (m, acc) r).1 ip =
      if r.ip = ip then updateCount (lookupCount m ip) r.outcome
      else lookupCount m ip := by
  obtain ⟨hn, rip, out⟩ := r
  rcases out with _ | ⟨re, d⟩
  · simp [processResult, updateCount]
  · cases re
    · rcases hl : lookupCount m rip with _ | c
      · by_cases h : rip = ip
        · subst h; simp [processResult, hl, updateCount]
        · simp [processResult, hl, updateCount, h]
      · by_cases h : rip = ip
        · subst h
          by_cases ht : t ≤ c + 1 <;>
            simp [processResult, hl, updateCount, ht, lookup_dictInsert_self]
        · by_cases ht : t ≤ c + 1 <;>
            simp [processResult, hl, updateCount, ht, h, lookup_dictInsert_ne _ _ _ _ h]
    · by_cases h : rip = ip
      · subst h; simp [processResult, updateCount, lookup_dictInsert_self]
      · simp [processResult, updateCount, h, lookup_dictInsert_ne _ _ _ _ h]

theorem processResult_snd (t : ℤ) (m : FailureCount) (acc : List AlertEntry)
    (r : HostResult) :
    (processResult t (m, acc) r).2 = acc ++ alertOf t (lookupCount m r.ip) r := by
  obtain ⟨hn, rip, out⟩ := r
  rcases out with _ | ⟨re, d⟩
  · simp [processResult, alertOf]
  · cases re
    · rcases hl : lookupCount m rip with _ | c
      · simp [processResult, alertOf, hl]
      · by_cases ht : t ≤ c + 1 <;> simp [processResult, alertOf, hl, ht]
    · simp [processResult, alertOf]

theorem processResult_none (t : ℤ) (st : FailureCount × List AlertEntry)
    (r : HostResult) (hf : r.outcome = none) : processResult t st r = st := by
  obtain ⟨hn, rip, out⟩ := r
  cases hf
  rfl

/-! ### Folding a whole cycle -/

theorem foldl_fst_untouched (t : ℤ) (results : List HostResult) :
    ∀ (m : FailureCount) (acc : List AlertEntry) (ip : String),
      (∀ r ∈ results, r.ip ≠ ip) →
      lookupCount (results.foldl (processResult t) (m, acc)).1 ip = lookupCount m ip := by
  induction results with
  | nil => intro m acc ip _; rfl
  | cons r rs ih =>
    intro m acc ip h
    rw [List.foldl_cons]
    rcases hpr : processResult t (m, acc) r with ⟨m', acc'⟩
    have h1 : lookupCount m' ip = lookupCount m ip := by
      have hw := processResult_fst t m acc r ip
      rw [hpr] at hw
      simpa [h r (List.mem_cons_self r rs)] using hw
    rw [ih m' acc' ip fun x hx => h x (List.mem_cons_of_mem r hx), h1]

theorem foldl_fst_lookup (t : ℤ) (results : List HostResult) :
    ∀ (m : FailureCount) (acc : List AlertEntry) (ip : String),
      (results.map HostResult.ip).Nodup →
      lookupCount (results.foldl (processResult t) (m, acc)).1 ip =
        match results.find? (fun r => r.ip == ip) with
        | none => lookupCount m ip
        | some r => updateCount (lookupCount m ip) r.outcome := by
  induction results with
  | nil => intro m acc ip _; rfl
  | cons r rs ih =>
    intro m acc ip hnd
    rw [List.map_cons, List.nodup_cons] at hnd
    obtain ⟨hnd1, hnd2⟩ := hnd
    rw [List.foldl_cons]
    rcases hpr : processResult t (m, acc) r with ⟨m', acc'⟩
    by_cases h : r.ip = ip
    · have hf : (r :: rs).find? (fun x => x.ip == ip) = some r := by
        simp [List.find?, h]
      rw [hf]
      have huntouched : ∀ x ∈ rs, x.ip ≠ ip := by
        intro x hx hxip
        exact hnd1 (h ▸ hxip ▸ List.mem_map_of_mem HostResult.ip hx)
      rw [foldl_fst_untouched t rs m' acc' ip huntouched]
      have hw := processResult_fst t m acc r ip
      rw [hpr] at hw
      simpa [h] using hw
    · have hb : (r.ip == ip) = false := beq_eq_false_iff_ne.mpr h
      have hf : (r :: rs).find? (fun x => x.ip == ip) = rs.find? (fun x => x.ip == ip) := by
        simp [List.find?, hb]
      rw [hf]
      have hm' : lookupCount m' ip = lookupCount m ip := by
        have hw := processResult_fst t m acc r ip
        rw [hpr] at hw
        simpa [h] using hw
      rw [ih m' acc' ip hnd2, hm']

theorem foldl_snd_alerts (t : ℤ) (results : List HostResult) :
    ∀ (m : FailureCount) (acc : List AlertEntry),
      (results.map HostResult.ip).Nodup →
      (results.foldl (processResult t) (m, acc)).2 =
        acc ++ (results.map (fun r => alertOf t (lookupCount m r.ip) r)).flatten := by
  induction results with
  | nil => intro m acc _; simp
  | cons r rs ih =>
    intro m acc hnd
    rw [List.map_cons, List.nodup_cons] at hnd
    obtain ⟨hnd1, hnd2⟩ := hnd
    rw [List.foldl_cons]
    rcases hpr : processResult t (m, acc) r with ⟨m', acc'⟩
    rw [ih m' acc' hnd2]
    have hacc' : acc' = acc ++ alertOf t (lookupCount m r.ip) r := by
      have hw := processResult_snd t m acc r
      rw [hpr] at hw
      exact hw
    have hmap : rs.map (fun x => alertOf t (lookupCount m' x.ip) x) =
        rs.map (fun x => alertOf t (lookupCount m x.ip) x) := by
      apply List.map_congr_left
      intro x hx
      have hne : r.ip ≠ x.ip := by
        intro hip
        exact hnd1 (hip ▸ List.mem_map_of_mem HostResult.ip hx)
      have hw := processResult_fst t m acc r x.ip
      rw [hpr] at hw
      simp only [if_neg hne] at hw
      rw [hw]
    rw [hmap, hacc']
    simp [List.append_assoc]

theorem alertOf_shape (t : ℤ) (old : Option ℤ) (r : HostResult) (e : AlertEntry)
    (he : e ∈ alertOf t old r) :
    e.1 = r.hostname ∧ e.2.1 = r.ip ∧ r.outcome ≠ none := by
  obtain ⟨hn, rip, out⟩ := r
  rcases out with _ | ⟨re, d⟩
  · simp [alertOf] at he
  · cases re
    · rcases old with _ | c
      · simp [alertOf] at he
      · by_cases ht : t ≤ c + 1
        · simp only [alertOf, if_pos ht, List.mem_singleton] at he
          subst he
          simp
        · simp [alertOf, ht] at he
    · simp [alertOf] at he

theorem foldl_snd_mem (t : ℤ) (results : List HostResult) :
    ∀ (m : FailureCount) (acc : List AlertEntry) (e : AlertEntry),
      e ∈ (results.foldl (processResult t) (m, acc)).2 →
      e ∈ acc ∨ ∃ r ∈ results, e.1 = r.hostname ∧ e.2.1 = r.ip ∧ r.outcome ≠ none := by
  induction results with
  | nil => intro m acc e he; exact Or.inl he
  | cons r rs ih =>
    intro m acc e he
    rw [List.foldl_cons] at he
    rcases hpr : processResult t (m, acc) r with ⟨m', acc'⟩
    rw [hpr] at he
    rcases ih m' acc' e he with h | ⟨x, hx, hxe⟩
    · have hacc' : acc' = acc ++ alertOf t (lookupCount m r.ip) r := by
        have hw := processResult_snd t m acc r
        rw [hpr] at hw
        exact hw
      rw [hacc'] at h
      rcases List.mem_append.mp h with h | h
      · exact Or.inl h
      · exact Or.inr ⟨r, List.mem_cons_self r rs, alertOf_shape t _ r e h⟩
    · exact Or.inr ⟨x, List.mem_cons_of_mem r hx, hxe⟩

theorem find?_ip_eq_some (results : List HostResult) (r : HostResult) (ip : String)
    (hmem : r ∈ results) (hip : r.ip = ip)
    (hnd : (results.map HostResult.ip).Nodup) :
    results.find? (fun x => x.ip == ip) = some r := by
  induction results with
  | nil => cases hmem
  | cons x xs ih =>
    rw [List.map_cons, List.nodup_cons] at hnd
    obtain ⟨hnd1, hnd2⟩ := hnd
    by_cases h : x.ip = ip
    · have hx : r = x := by
        rcases List.mem_cons.mp hmem with rfl | hr
        · rfl
        · exfalso
          apply hnd1
          have hm : r.ip ∈ xs.map HostResult.ip := List.mem_map_of_mem HostResult.ip hr
          rw [hip, ← h] at hm
          exact hm
      subst hx
      simp [List.find?, h]
    · have hr : r ∈ xs := by
        rcases List.mem_cons.mp hmem with rfl | hr
        · exact absurd hip h
        · exact hr
      have hb : (x.ip == ip) = false := beq_eq_false_iff_ne.mpr h
      simp only [List.find?, hb]
      exact ih hr hnd2

/-! ### Auxiliary lemmas -/

theorem pyInt_eq_floor (q : ℚ) (h : 0 ≤ q) : pyInt q = ⌊q⌋ := by
  have hnum : 0 ≤ q.num := Rat.num_nonneg.mpr h
  have h2 : q.num / (q.den : ℤ) = (q.num.toNat : ℤ) / (q.den : ℤ) := by
    rw [Int.toNat_of_nonneg hnum]
  rw [pyInt, if_pos hnum, Rat.floor_def, h2]
  exact Int.ofNat_tdiv _ _

theorem mem_flatten_map {β : Type} (g : HostResult → List β) (results : List HostResult)
    (e : β) : e ∈ (results.map g).flatten ↔ ∃ r ∈ results, e ∈ g r := by
  simp [List.mem_flatten]

theorem ip_inj_of_nodup (results : List HostResult)
    (hnd : (results.map HostResult.ip).Nodup) (a b : HostResult)
    (ha : a ∈ results) (hb : b ∈ results) (hab : a.ip = b.ip) : a = b := by
  induction results with
  | nil => cases ha
  | cons x xs ih =>
    rw [List.map_cons, List.nodup_cons] at hnd
    obtain ⟨h1, h2⟩ := hnd
    rcases List.mem_cons.mp ha with rfl | ha' <;> rcases List.mem_cons.mp hb with rfl | hb'
    · rfl
    · exfalso
      apply h1
      have hm := List.mem_map_of_mem HostResult.ip hb'
      rw [← hab] at hm
      exact hm
    · exfalso
      apply h1
      have hm := List.mem_map_of_mem HostResult.ip ha'
      rw [hab] at hm
      exact hm
    · exact ih h2 ha' hb'

theorem updateCount_isSome (old : Option ℤ) (out : Option (Bool × PingDetails))
    (h : old.isSome) : (updateCount old out).isSome := by
  rcases out with _ | ⟨re, d⟩
  · exact h
  · cases re
    · rcases old with _ | c
      · cases h
      · simp [updateCount]
    · simp [updateCount]

theorem foldl_fst_isSome (t : ℤ) (results : List HostResult) :
    ∀ (m : FailureCount) (acc : List AlertEntry) (ip : String),
      (lookupCount m ip).isSome →
      (lookupCount (results.foldl (processResult t) (m, acc)).1 ip).isSome := by
  induction results with
  | nil => intro m acc ip h; exact h
  | cons r rs ih =>
    intro m acc ip h
    rw [List.foldl_cons]
    rcases hpr : processResult t (m, acc) r with ⟨m', acc'⟩
    apply ih
    have hw := processResult_fst t m acc r ip
    rw [hpr] at hw
    rw [hw]
    by_cases hip : r.ip = ip
    · rw [if_pos hip]; exact updateCount_isSome _ _ h
    · rw [if_neg hip]; exact h

theorem foldl_fst_nonneg (t : ℤ) (results : List HostResult) :
    ∀ (m : FailureCount) (acc : List AlertEntry),
      (∀ ip c, lookupCount m ip = some c → 0 ≤ c) →
      ∀ ip c, lookupCount (results.foldl (processResult t) (m, acc)).1 ip = some c → 0 ≤ c := by
  induction results with
  | nil => intro m acc h ip c hc; exact h ip c hc
  | cons r rs ih =>
    intro m acc h ip c hc
    rw [List.foldl_cons] at hc
    rcases hpr : processResult t (m, acc) r with ⟨m', acc'⟩
    rw [hpr] at hc
    refine ih m' acc' ?_ ip c hc
    intro ip' c' hc'
    have hw := processResult_fst t m acc r ip'
    rw [hpr] at hw
    rw [hw] at hc'
    by_cases hip : r.ip = ip'
    · rw [if_pos hip] at hc'
      rcases hout : r.outcome with _ | ⟨re, d⟩
      · rw [hout] at hc'; exact h ip' c' hc'
      · rw [hout] at hc'
        cases re
        · rcases hl : lookupCount m ip' with _ | c0
          · rw [hl] at hc'; cases hc'
          · rw [hl] at hc'
            simp only [updateCount, Option.some.injEq] at hc'
            have := h ip' c0 hl
            omega
        · simp only [updateCount, Option.some.injEq] at hc'
          omega
    · rw [if_neg hip] at hc'
      exact h ip' c' hc'

theorem counter_step_cases (t : ℤ) (st : FailureCount) (results : List HostResult)
    (hnd : (results.map HostResult.ip).Nodup) (ip : String) (c c' : ℤ)
    (hc : lookupCount st ip = some c)
    (hc' : lookupCount (monitor_ips t st results).1 ip = some c') :
    c' = c + 1 ∨ c' = 0 ∨ c' = c := by
  rw [monitor_ips, foldl_fst_lookup t results st [] ip hnd] at hc'
  rcases hfind : results.find? (fun r => r.ip == ip) with _ | r
  · rw [hfind] at hc'
    simp only at hc'
    rw [hc] at hc'
    exact Or.inr (Or.inr (Option.some.inj hc').symm)
  · rw [hfind] at hc'
    simp only [hc] at hc'
    rcases hout : r.outcome with _ | ⟨re, d⟩
    · rw [hout] at hc'
      simp only [updateCount] at hc'
      exact Or.inr (Or.inr (Option.some.inj hc').symm)
    · rw [hout] at hc'
      cases re
      · simp only [updateCount, Option.some.injEq] at hc'
        exact Or.inl hc'.symm
      · simp only [updateCount, Option.some.injEq] at hc'
        exact Or.inr (Or.inl hc'.symm)

theorem lookup_initFold (l : List (String × String)) :
    ∀ (m : FailureCount) (ip : String),
      (lookupCount m ip).isSome ∨ ip ∈ l.map Prod.snd →
      (lookupCount (l.foldl (fun m p => dictInsert m p.2 0) m) ip).isSome := by
  induction l with
  | nil =>
    intro m ip h
    rcases h with h | h
    · exact h
    · cases h
  | cons p l ih =>
    intro m ip h
    rw [List.foldl_cons]
    apply ih
    by_cases hp : p.2 = ip
    · left
      subst hp
      rw [lookup_dictInsert_self]
      rfl
    · rcases h with hs | hm
      · left
        rw [lookup_dictInsert_ne _ _ _ _ hp]
        exact hs
      · rw [List.map_cons] at hm
        rcases List.mem_cons.mp hm with h' | h'
        · exact absurd h'.symm hp
        · right
          exact h'

theorem lookup_init_isSome (ip_list : List (String × String)) (ip : String)
    (h : ip ∈ ip_list.map Prod.snd) :
    (lookupCount (initFailureCount ip_list) ip).isSome :=
  lookup_initFold ip_list [] ip (Or.inr h)

theorem initFold_values (l : List (String × String)) :
    ∀ (m : FailureCount), (∀ ip c, lookupCount m ip = some c → c = 0) →
      ∀ ip c, lookupCount (l.foldl (fun m p => dictInsert m p.2 0) m) ip = some c → c = 0 := by
  induction l with
  | nil => intro m h ip c hc; exact h ip c hc
  | cons p l ih =>
    intro m h ip c hc
    rw [List.foldl_cons] at hc
    refine ih _ ?_ ip c hc
    intro ip' c' hc'
    by_cases hp : p.2 = ip'
    · subst hp
      rw [lookup_dictInsert_self] at hc'
      exact (Option.some.inj hc').symm
    · rw [lookup_dictInsert_ne _ _ _ _ hp] at hc'
      exact h ip' c' hc'

theorem lookup_init_eq_zero (ip_list : List (String × String)) (ip : String) (c : ℤ)
    (hc : lookupCount (initFailureCount ip_list) ip = some c) : c = 0 :=
  initFold_values ip_list [] (fun _ _ h => by cases h) ip c hc

/-! ### Claim theorems -/

/-- C1: starting from counter 0, `N` consecutive unreachable results leave the
host's counter at `N`, and a single reachable result resets the counter to 0
immediately (from any state). -/
theorem C1_consecutive_unreachable (t : ℤ) (hostname ip : String) (st : FailureCount)
    (h0 : lookupCount st ip = some 0) (N : ℕ) :
    lookupCount (iterUnreachable t hostname ip st N) ip = some (N : ℤ) ∧
    ∀ st' : FailureCount,
      lookupCount (monitor_ips t st' [reachableResult hostname ip]).1 ip = some 0 := by
  constructor
  · have key : ∀ (n : ℕ) (st0 : FailureCount) (c : ℤ), lookupCount st0 ip = some c →
        lookupCount (iterUnreachable t hostname ip st0 n) ip = some (c + n) := by
      intro n
      induction n with
      | zero => intro st0 c hc; simpa using hc
      | succ n ih =>
        intro st0 c hc
        have hn := ih st0 c hc
        show lookupCount
          (monitor_ips t (iterUnreachable t hostname ip st0 n)
            [unreachableResult hostname ip]).1 ip = _
        have hipeq : (unreachableResult hostname ip).ip = ip := rfl
        rw [monitor_ips, List.foldl_cons, List.foldl_nil,
          processResult_fst t _ [] (unreachableResult hostname ip) ip, if_pos hipeq, hn]
        show updateCount (some (c + n)) (some (false, ⟨none, none⟩)) = some (c + ((n : ℕ) + 1 : ℕ))
        simp [updateCount]
        ring
    have h := key N st 0 h0
    simpa using h
  · intro st'
    have hipeq : (reachableResult hostname ip).ip = ip := rfl
    rw [monitor_ips, List.foldl_cons, List.foldl_nil,
      processResult_fst t _ [] (reachableResult hostname ip) ip, if_pos hipeq]
    rfl

/-- C1 witness. -/
theorem C1_consecutive_unreachable_witness :
    lookupCount (iterUnreachable 3 "A" "10.0.0.1"
        (initFailureCount [("A", "10.0.0.1")]) 2) "10.0.0.1" = some 2 ∧
    ∀ st' : FailureCount,
      lookupCount (monitor_ips 3 st' [reachableResult "A" "10.0.0.1"]).1 "10.0.0.1" = some 0 :=
  C1_consecutive_unreachable 3 "A" "10.0.0.1" (initFailureCount [("A", "10.0.0.1")])
    (by decide) 2

/-- C2 counterexample: with `failure_threshold = 0` a host that is reachable
this cycle ends the cycle with counter `0 ≥ failure_threshold`, yet the alert
list is empty — so membership in the alert list is not equivalent to the
post-update counter meeting the threshold in full generality. -/
theorem C2_counterexample :
    lookupCount (monitor_ips 0 (initFailureCount [("A", "10.0.0.1")])
        [reachableResult "A" "10.0.0.1"]).1 "10.0.0.1" = some 0 ∧
    (0 : ℤ) ≤ 0 ∧
    (monitor_ips 0 (initFailureCount [("A", "10.0.0.1")])
        [reachableResult "A" "10.0.0.1"]).2 = [] := by
  decide

/-- C2 (amended with `1 ≤ failure_threshold`): in any cycle over results with
pairwise-distinct addresses, a probed host with a tracked counter appears in
the alert list exactly when its post-update counter meets or exceeds the
threshold (inclusive). Applied to each cycle in turn this also gives the
no-fire-once-suppression property: the host re-enters the alert list every
cycle its counter stays at or above the threshold. -/
theorem C2_alert_iff_threshold (t : ℤ) (ht : 1 ≤ t) (m : FailureCount)
    (results : List HostResult) (hnd : (results.map HostResult.ip).Nodup)
    (r : HostResult) (hr : r ∈ results) (hout : r.outcome.isSome)
    (hk : (lookupCount m r.ip).isSome) :
    (∃ c, (r.hostname, r.ip, c) ∈ (monitor_ips t m results).2) ↔
    (∃ c, lookupCount (monitor_ips t m results).1 r.ip = some c ∧ t ≤ c) := by
  obtain ⟨c0, hc0⟩ := Option.isSome_iff_exists.mp hk
  obtain ⟨out, hout'⟩ := Option.isSome_iff_exists.mp hout
  have hcount : lookupCount (monitor_ips t m results).1 r.ip =
      updateCount (lookupCount m r.ip) r.outcome := by
    rw [monitor_ips, foldl_fst_lookup t results m [] r.ip hnd,
      find?_ip_eq_some results r r.ip hr rfl hnd]
  have halerts : (monitor_ips t m results).2 =
      (results.map (fun x => alertOf t (lookupCount m x.ip) x)).flatten := by
    rw [monitor_ips, foldl_snd_alerts t results m [] hnd, List.nil_append]
  obtain ⟨re, d⟩ := out
  constructor
  · rintro ⟨c, hc⟩
    rw [halerts, mem_flatten_map] at hc
    obtain ⟨r', hr', he⟩ := hc
    have hshape := alertOf_shape t (lookupCount m r'.ip) r' _ he
    have hrr : r' = r := ip_inj_of_nodup results hnd r' r hr' hr hshape.2.1.symm
    subst hrr
    rw [hc0] at he
    cases re
    · by_cases h1 : t ≤ c0 + 1
      · refine ⟨c0 + 1, ?_, h1⟩
        rw [hcount, hc0, hout']
        rfl
      · simp [alertOf, hout', h1] at he
    · simp [alertOf, hout'] at he
  · rintro ⟨c, hcf, htc⟩
    rw [hcount, hc0, hout'] at hcf
    cases re
    · simp only [updateCount, Option.some.injEq] at hcf
      subst hcf
      refine ⟨c0 + 1, ?_⟩
      rw [halerts, mem_flatten_map]
      refine ⟨r, hr, ?_⟩
      simp [alertOf, hout', hc0, if_pos htc]
    · simp only [updateCount, Option.some.injEq] at hcf
      omega

/-- C2 witness. -/
theorem C2_alert_iff_threshold_witness :
    (∃ c, ("A", "10.0.0.1", c) ∈ (monitor_ips 1 (initFailureCount [("A", "10.0.0.1")])
        [unreachableResult "A" "10.0.0.1"]).2) ↔
    (∃ c, lookupCount (monitor_ips 1 (initFailureCount [("A", "10.0.0.1")])
        [unreachableResult "A" "10.0.0.1"]).1 "10.0.0.1" = some c ∧ 1 ≤ c) :=
  C2_alert_iff_threshold 1 (by norm_num) (initFailureCount [("A", "10.0.0.1")])
    [unreachableResult "A" "10.0.0.1"] (by decide)
    (unreachableResult "A" "10.0.0.1") (by decide) (by decide) (by decide)

/-- C3: in every state of the failure tracker reachable by the monitoring
loop, every address of the host list has an entry, every counter is
non-negative, and one cycle over pairwise-distinct addresses changes each
counter only by incrementing it by one, resetting it to zero, or leaving it
unchanged. -/
theorem C3_invariant (ip_list : List (String × String)) (t : ℤ) (st : FailureCount)
    (h : Reachable ip_list t st) :
    (∀ ip, ip ∈ ip_list.map Prod.snd → (lookupCount st ip).isSome) ∧
    (∀ ip c, lookupCount st ip = some c → 0 ≤ c) ∧
    (∀ results : List HostResult, (results.map HostResult.ip).Nodup →
      ∀ ip c c', lookupCount st ip = some c →
        lookupCount (monitor_ips t st results).1 ip = some c' →
        c' = c + 1 ∨ c' = 0 ∨ c' = c) := by
  refine ⟨?_, ?_, ?_⟩
  · induction h with
    | init => intro ip hip; exact lookup_init_isSome ip_list ip hip
    | step st results hres hst ih =>
      intro ip hip
      exact foldl_fst_isSome t results st [] ip (ih ip hip)
  · induction h with
    | init =>
      intro ip c hc
      have := lookup_init_eq_zero ip_list ip c hc
      omega
    | step st results hres hst ih =>
      exact foldl_fst_nonneg t results st [] ih
  · intro results hnd ip c c' hc hc'
    exact counter_step_cases t st results hnd ip c c' hc hc'

/-- C3 witness. -/
theorem C3_invariant_witness :
    (∀ ip, ip ∈ [("A", "10.0.0.1")].map Prod.snd →
      (lookupCount (initFailureCount [("A", "10.0.0.1")]) ip).isSome) ∧
    (∀ ip c, lookupCount (initFailureCount [("A", "10.0.0.1")]) ip = some c → 0 ≤ c) ∧
    (∀ results : List HostResult, (results.map HostResult.ip).Nodup →
      ∀ ip c c', lookupCount (initFailureCount [("A", "10.0.0.1")]) ip = some c →
        lookupCount (monitor_ips 3 (initFailureCount [("A", "10.0.0.1")]) results).1 ip = some c' →
        c' = c + 1 ∨ c' = 0 ∨ c' = c) :=
  C3_invariant [("A", "10.0.0.1")] 3 (initFailureCount [("A", "10.0.0.1")]) Reachable.init

/-- C4 counterexample: for per-packet times 1 ms and 2 ms the code stores
`int(3/2) = 1`, while the arithmetic mean rounded to the nearest integer is
`2` — so the latency field is not the rounded mean. -/
theorem C4_counterexample :
    (ping_ip "10.0.0.1" ⟨true, [1, 2], [64]⟩).2.2.response_time = some 1 ∧
    round (([(1 : ℚ), 2].sum) / (([(1 : ℚ), 2].length : ℚ))) = 2 ∧
    some (1 : ℤ) ≠ some (2 : ℤ) := by
  have hmean : ([(1 : ℚ), 2].sum) / (([(1 : ℚ), 2].length : ℚ)) = 3 / 2 := by
    norm_num
  refine ⟨?_, ?_, by decide⟩
  · have h0 : (ping_ip "10.0.0.1" ⟨true, [1, 2], [64]⟩).2.2.response_time =
        some (pyInt (([(1 : ℚ), 2].sum) / (([(1 : ℚ), 2].length : ℚ)))) := rfl
    rw [h0, hmean, pyInt_eq_floor (3 / 2 : ℚ) (by norm_num)]
    have hf : ⌊(3 / 2 : ℚ)⌋ = 1 := by
      apply Int.floor_eq_iff.mpr
      constructor <;> norm_num
    rw [hf]
  · rw [hmean, round_eq, show (3 / 2 + 1 / 2 : ℚ) = ((2 : ℤ) : ℚ) by norm_num,
      Int.floor_intCast]

/-- C4 (amended): on a successful probe with at least one parsed (and
non-negative) round-trip time, the latency field is the arithmetic mean of
the observed times truncated toward zero — for these non-negative values,
its floor — not the nearest integer. -/
theorem C4_latency_truncates (ip : String) (out : PingOutput)
    (hre : out.exitSuccess = true) (hne : out.timeMatches ≠ [])
    (hnn : ∀ q ∈ out.timeMatches, 0 ≤ q) :
    (ping_ip ip out).2.2.response_time =
      some ⌊out.timeMatches.sum / (out.timeMatches.length : ℚ)⌋ := by
  obtain ⟨es, tm, ttlm⟩ := out
  subst hre
  rcases tm with _ | ⟨q0, qs⟩
  · exact absurd rfl hne
  · have h0 : (ping_ip ip ⟨true, q0 :: qs, ttlm⟩).2.2.response_time =
        some (pyInt ((q0 :: qs).sum / (((q0 :: qs).length : ℕ) : ℚ))) := rfl
    rw [h0, pyInt_eq_floor]
    apply div_nonneg
    · exact List.sum_nonneg hnn
    · exact_mod_cast Nat.zero_le _

/-- C4 witness. -/
theorem C4_latency_truncates_witness :
    (ping_ip "10.0.0.1" ⟨true, [2, 4], []⟩).2.2.response_time =
      some ⌊([(2 : ℚ), 4].sum / (([(2 : ℚ), 4].length : ℚ)))⌋ :=
  C4_latency_truncates "10.0.0.1" ⟨true, [2, 4], []⟩ rfl (by simp)
    (by intro q hq; rcases List.mem_cons.mp hq with rfl | hq'
        · norm_num
        · rcases List.mem_cons.mp hq' with rfl | hq''
          · norm_num
          · cases hq'')

/-- C5 counterexample: with TTL matches 64 then 63 in the probe output, the
code (`re.search`) reports `64`, the first match, while the most recently
observed (last) value is `63`. -/
theorem C5_counterexample :
    (ping_ip "10.0.0.1" ⟨true, [], [64, 63]⟩).2.2.ttl = some 64 ∧
    [64, 63].getLast? = some 63 ∧ (64 : ℕ) ≠ 63 := by
  decide

/-- C5 (amended): on a successful probe whose output contains one or more TTL
values, the ttl field is the FIRST observed TTL value. -/
theorem C5_ttl_first (ip : String) (out : PingOutput) (v : ℕ) (vs : List ℕ)
    (hre : out.exitSuccess = true) (h : out.ttlMatches = v :: vs) :
    (ping_ip ip out).2.2.ttl = some v := by
  obtain ⟨es, tm, ttlm⟩ := out
  subst hre
  subst h
  rfl

/-- C5 witness. -/
theorem C5_ttl_first_witness :
    (ping_ip "10.0.0.2" ⟨true, [], [128, 127, 126]⟩).2.2.ttl = some 128 :=
  C5_ttl_first "10.0.0.2" ⟨true, [], [128, 127, 126]⟩ 128 [127, 126] rfl rfl

/-- C6: a probe invocation that raises (outcome `none`) leaves the whole
cycle result exactly as if that host had been absent; in particular (when no
other result carries the same address) that host's counter is unchanged and
the host appears in no alert entry of the cycle. -/
theorem C6_probe_fault_isolated (t : ℤ) (init : FailureCount)
    (l1 l2 : List HostResult) (r : HostResult) (hf : r.outcome = none)
    (hip : r.ip ∉ (l1 ++ l2).map HostResult.ip) :
    monitor_ips t init (l1 ++ r :: l2) = monitor_ips t init (l1 ++ l2) ∧
    lookupCount (monitor_ips t init (l1 ++ r :: l2)).1 r.ip = lookupCount init r.ip ∧
    ∀ hn c, (hn, r.ip, c) ∉ (monitor_ips t init (l1 ++ r :: l2)).2 := by
  have heq : monitor_ips t init (l1 ++ r :: l2) = monitor_ips t init (l1 ++ l2) := by
    rw [monitor_ips, monitor_ips, List.foldl_append, List.foldl_append, List.foldl_cons,
      processResult_none t _ r hf]
  refine ⟨heq, ?_, ?_⟩
  · rw [heq, monitor_ips]
    apply foldl_fst_untouched
    intro x hx hxip
    apply hip
    have hm := List.mem_map_of_mem HostResult.ip hx
    rw [hxip] at hm
    exact hm
  · intro hn c hmem
    rw [heq, monitor_ips] at hmem
    rcases foldl_snd_mem t (l1 ++ l2) init [] (hn, r.ip, c) hmem with h | ⟨x, hx, _, hx2, _⟩
    · cases h
    · apply hip
      have hm := List.mem_map_of_mem HostResult.ip hx
      rw [← hx2] at hm
      exact hm

/-- C6 witness. -/
theorem C6_probe_fault_isolated_witness :
    monitor_ips 3 (initFailureCount [("A", "10.0.0.1"), ("B", "10.0.0.2")])
        ([unreachableResult "B" "10.0.0.2"] ++ (⟨"A", "10.0.0.1", none⟩ : HostResult) :: []) =
      monitor_ips 3 (initFailureCount [("A", "10.0.0.1"), ("B", "10.0.0.2")])
        ([unreachableResult "B" "10.0.0.2"] ++ []) ∧
    lookupCount (monitor_ips 3 (initFailureCount [("A", "10.0.0.1"), ("B", "10.0.0.2")])
        ([unreachableResult "B" "10.0.0.2"] ++ (⟨"A", "10.0.0.1", none⟩ : HostResult) :: [])).1
        "10.0.0.1" =
      lookupCount (initFailureCount [("A", "10.0.0.1"), ("B", "10.0.0.2")]) "10.0.0.1" ∧
    ∀ hn c, (hn, "10.0.0.1", c) ∉
      (monitor_ips 3 (initFailureCount [("A", "10.0.0.1"), ("B", "10.0.0.2")])
        ([unreachableResult "B" "10.0.0.2"] ++ (⟨"A", "10.0.0.1", none⟩ : HostResult) :: [])).2 :=
  C6_probe_fault_isolated 3 (initFailureCount [("A", "10.0.0.1"), ("B", "10.0.0.2")])
    [unreachableResult "B" "10.0.0.2"] [] ⟨"A", "10.0.0.1", none⟩ rfl (by decide)

/-- C7 counterexample: a missing configuration file, or a present field whose
value `int()` cannot parse, makes startup fail (`none`) instead of falling
back to defaults — configuration loading can terminate the process. -/
theorem C7_counterexample :
    startupConfig none = none ∧
    startupConfig (some ⟨fun s k =>
      if s = "settings" ∧ k = "interval" then some "abc" else none⟩) = none := by
  exact ⟨rfl, by decide⟩

/-- C7 (amended): when the configuration file opens and every field is
absent, each field falls back to its documented default (interval 300,
channels empty, ping_count 3, ping_timeout 1000, failure_threshold 3) and
startup succeeds; but a missing file or a malformed field value is fatal. -/
theorem C7_field_defaults (cfg : ConfigFile) (h : ∀ s k, cfg.get s k = none) :
    startupConfig (some cfg) =
      some { interval := 300, platforms := [], ping_count := 3,
             ping_timeout := 1000, failure_threshold := 3 } := by
  have hp : parsePlatforms "" = [] := by decide
  simp [startupConfig, getIntField, h, hp]

/-- C7 witness. -/
theorem C7_field_defaults_witness :
    startupConfig (some ⟨fun _ _ => none⟩) =
      some { interval := 300, platforms := [], ping_count := 3,
             ping_timeout := 1000, failure_threshold := 3 } :=
  C7_field_defaults ⟨fun _ _ => none⟩ (fun _ _ => rfl)

theorem call_bot_exe_ok (env : SinkEnv) (p msg : String) :
    ∃ o, call_bot_exe env p msg = .ok o := by
  rw [call_bot_exe]
  by_cases hb : env.botExeExists = false
  · rw [if_pos hb]
    exact ⟨_, rfl⟩
  · rw [if_neg hb]
    rcases hrun : env.run p msg with e | v
    · cases e <;> exact ⟨_, rfl⟩
    · exact ⟨_, rfl⟩

theorem dispatchLoop_ok (env : SinkEnv) (msg : String) (platforms : List String) :
    ∃ l, dispatchLoop env msg platforms = .ok l ∧ l.map Prod.fst = platforms := by
  induction platforms with
  | nil => exact ⟨[], rfl, rfl⟩
  | cons p ps ih =>
    obtain ⟨l, hl, hmap⟩ := ih
    obtain ⟨o, ho⟩ := call_bot_exe_ok env p msg
    refine ⟨(p, o) :: l, ?_, ?_⟩
    · rw [dispatchLoop, ho, hl]
    · simp [hmap]

/-- C8: with a non-empty alert list, `send_alert` performs one dispatch
attempt per configured channel, in order, whatever each channel's sink does
(missing binary, failure, timeout, other exception), and no exception
escapes `send_alert`. -/
theorem C8_dispatch_independent (env : SinkEnv) (now : String)
    (alert_list : List AlertEntry) (platforms : List String)
    (hne : alert_list ≠ []) :
    ∃ l, send_alert env now alert_list platforms = .ok l ∧
      l.map Prod.fst = platforms := by
  rcases alert_list with _ | ⟨e, es⟩
  · exact absurd rfl hne
  · exact dispatchLoop_ok env (buildAlertMessage now (e :: es)) platforms

/-- C8 witness: the first channel's sink times out, yet both channels are
attempted in order. -/
theorem C8_dispatch_independent_witness :
    ∃ l, send_alert
        ⟨true, fun p _ => if p = "x" then .error .timeoutExpired else .ok ()⟩
        "2026-10-12 00:00:00" [("A", "10.0.0.1", 3)] ["x", "y"] = .ok l ∧
      l.map Prod.fst = ["x", "y"] :=
  C8_dispatch_independent
    ⟨true, fun p _ => if p = "x" then .error .timeoutExpired else .ok ()⟩
    "2026-10-12 00:00:00" [("A", "10.0.0.1", 3)] ["x", "y"] (by decide)

/-- C10: over a cycle whose results carry pairwise-distinct addresses, the
final failure-count map (pointwise) and the membership of the alert list are
the same for every completion order of the results. -/
theorem C10_order_independent (t : ℤ) (init : FailureCount)
    (rs rs' : List HostResult) (hperm : rs.Perm rs')
    (hnd : (rs.map HostResult.ip).Nodup) :
    (∀ ip, lookupCount (monitor_ips t init rs).1 ip =
      lookupCount (monitor_ips t init rs').1 ip) ∧
    (∀ e : AlertEntry, e ∈ (monitor_ips t init rs).2 ↔ e ∈ (monitor_ips t init rs').2) := by
  have hnd' : (rs'.map HostResult.ip).Nodup := ((hperm.map HostResult.ip).nodup_iff).mp hnd
  constructor
  · intro ip
    rw [monitor_ips, monitor_ips, foldl_fst_lookup t rs init [] ip hnd,
      foldl_fst_lookup t rs' init [] ip hnd']
    have hfind : rs.find? (fun r => r.ip == ip) = rs'.find? (fun r => r.ip == ip) := by
      by_cases hex : ∃ r ∈ rs, r.ip = ip
      · obtain ⟨r, hr, hrip⟩ := hex
        rw [find?_ip_eq_some rs r ip hr hrip hnd,
          find?_ip_eq_some rs' r ip (hperm.mem_iff.mp hr) hrip hnd']
      · push_neg at hex
        rw [List.find?_eq_none.mpr (fun x hx => by simpa using hex x hx),
          List.find?_eq_none.mpr (fun x hx => by simpa using hex x (hperm.mem_iff.mpr hx))]
    rw [hfind]
  · intro e
    rw [monitor_ips, monitor_ips, foldl_snd_alerts t rs init [] hnd,
      foldl_snd_alerts t rs' init [] hnd']
    simp only [List.nil_append]
    rw [mem_flatten_map, mem_flatten_map]
    constructor
    · rintro ⟨r, hr, he⟩
      exact ⟨r, hperm.mem_iff.mp hr, he⟩
    · rintro ⟨r, hr, he⟩
      exact ⟨r, hperm.mem_iff.mpr hr, he⟩

/-- C10 witness. -/
theorem C10_order_independent_witness :
    (∀ ip, lookupCount (monitor_ips 2 (initFailureCount [("A", "10.0.0.1"), ("B", "10.0.0.2")])
        [unreachableResult "A" "10.0.0.1", reachableResult "B" "10.0.0.2"]).1 ip =
      lookupCount (monitor_ips 2 (initFailureCount [("A", "10.0.0.1"), ("B", "10.0.0.2")])
        [reachableResult "B" "10.0.0.2", unreachableResult "A" "10.0.0.1"]).1 ip) ∧
    (∀ e : AlertEntry,
      e ∈ (monitor_ips 2 (initFailureCount [("A", "10.0.0.1"), ("B", "10.0.0.2")])
        [unreachableResult "A" "10.0.0.1", reachableResult "B" "10.0.0.2"]).2 ↔
      e ∈ (monitor_ips 2 (initFailureCount [("A", "10.0.0.1"), ("B", "10.0.0.2")])
        [reachableResult "B" "10.0.0.2", unreachableResult "A" "10.0.0.1"]).2) :=
  C10_order_independent 2 (initFailureCount [("A", "10.0.0.1"), ("B", "10.0.0.2")])
    [unreachableResult "A" "10.0.0.1", reachableResult "B" "10.0.0.2"]
    [reachableResult "B" "10.0.0.2", unreachableResult "A" "10.0.0.1"]
    (by decide) (by decide)

end SWMonitor
